import Mathlib

/-
Verification development for the logrole repository.

The development shallowly embeds the three subsystems the claims are about:

  * the `cache` package (src/server/serve.go, `package cache` section):
    an expiring store built on the groupcache LRU list;
  * the `views` package (src/server/serve.go, `package views` section):
    permission-filtered access to the upstream client, in particular
    `Client.GetMediaURLs`;
  * the alert list HTTP handler (src/unnamed/part_000):
    `alertListServer.ServeHTTP` and `getAlertFrequency`.

Go `time.Time` and `time.Duration` are modelled as `Int` nanoseconds.
Outcomes of collaborators that live outside the embedded code (the HTTP
request parsing helpers, the upstream Twilio client) are passed to the
embedded functions as explicit inputs, and the embedding records which
upstream calls a run performs so that "never contacts the upstream"
claims are statable.
-/

set_option autoImplicit false

namespace Logrole

/- Go time.Duration and time.Time are both modelled as Int (nanoseconds,
respectively nanoseconds since the epoch). -/

def nsSecond : Int := 1000000000

def nsMinute : Int := 60 * nsSecond

def nsHour : Int := 60 * nsMinute

/-
The github.com/golang/groupcache/lru dependency used by the cache.
`entries` is the recency list, most recently used first. `maxEntries = 0`
means the cache size is unbounded, as in the library.
-/
structure LRU (V : Type) where
  maxEntries : Nat
  entries : List (String × V)
  deriving DecidableEq

namespace LRU

variable {V : Type}

/-- Whether a key is present (the map lookup of the library). -/
def containsKey (c : LRU V) (k : String) : Bool :=
  c.entries.any (fun p => p.1 == k)

/-- lru.Cache.Add: on a hit, move the element to the front and replace its
value; on a miss, push a new element at the front and, when the bound is
exceeded, remove the oldest (last) element. -/
def add (c : LRU V) (k : String) (v : V) : LRU V :=
  if c.containsKey k then
    { c with entries := (k, v) :: c.entries.eraseP (fun p => p.1 == k) }
  else if c.maxEntries ≠ 0 ∧ ((k, v) :: c.entries).length > c.maxEntries then
    { c with entries := ((k, v) :: c.entries).dropLast }
  else
    { c with entries := (k, v) :: c.entries }

/-- lru.Cache.Get: on a hit, move the element to the front and return its
value. -/
def get (c : LRU V) (k : String) : Option V × LRU V :=
  match c.entries.find? (fun p => p.1 == k) with
  | some (_, v) => (some v, { c with entries := (k, v) :: c.entries.eraseP (fun p => p.1 == k) })
  | none => (none, c)

/-- lru.Cache.Remove. -/
def remove (c : LRU V) (k : String) : LRU V :=
  { c with entries := c.entries.eraseP (fun p => p.1 == k) }

/-- Reachable LRU states keep at most one element per key. -/
def WF (c : LRU V) : Prop := (c.entries.map Prod.fst).Nodup

theorem add_entries (c : LRU V) (k : String) (v : V) :
    ∃ rest, (c.add k v).entries = (k, v) :: rest ∧
      (rest = c.entries.eraseP (fun p => p.1 == k) ∨ rest = c.entries ∨ rest = c.entries.dropLast) := by
  unfold add
  by_cases h : c.containsKey k
  · rw [if_pos h]
    exact ⟨_, rfl, Or.inl rfl⟩
  · rw [if_neg h]
    by_cases hev : c.maxEntries ≠ 0 ∧ ((k, v) :: c.entries).length > c.maxEntries
    · rw [if_pos hev]
      have hne : c.entries ≠ [] := by
        intro hnil
        rcases hev with ⟨h0, hlen⟩
        rw [hnil] at hlen
        simp at hlen
        omega
      obtain ⟨p, tl, hm⟩ := List.exists_cons_of_ne_nil hne
      refine ⟨c.entries.dropLast, ?_, Or.inr (Or.inr rfl)⟩
      show ((k, v) :: c.entries).dropLast = _
      rw [hm, List.dropLast_cons₂]
    · rw [if_neg hev]
      exact ⟨c.entries, rfl, Or.inr (Or.inl rfl)⟩

theorem find?_add_self (c : LRU V) (k : String) (v : V) :
    (c.add k v).entries.find? (fun p => p.1 == k) = some (k, v) := by
  obtain ⟨rest, hr, -⟩ := c.add_entries k v
  rw [hr]
  exact List.find?_cons_of_pos _ (by simp)

theorem add_shape (c : LRU V) (hwf : c.WF) (k : String) (v : V) :
    ∃ rest, (c.add k v).entries = (k, v) :: rest ∧ ∀ p ∈ rest, (p.1 == k) = false := by
  by_cases h : c.containsKey k = true
  · -- the key was present: the one old occurrence is erased
    refine ⟨c.entries.eraseP (fun p => p.1 == k), ?_, ?_⟩
    · unfold add
      rw [if_pos h]
    · have hany : c.entries.any (fun p => p.1 == k) = true := h
      rcases List.any_eq_true.mp hany with ⟨a, ha, hpa⟩
      rcases List.exists_of_eraseP (p := fun q => q.1 == k) ha hpa with ⟨b, l₁, l₂, hl₁, hpb, hsplit, herase⟩
      intro q hq
      rw [herase] at hq
      rcases List.mem_append.mp hq with hq₁ | hq₂
      · exact Bool.eq_false_iff.mpr (hl₁ q hq₁)
      · by_contra hcq
        rw [Bool.not_eq_false] at hcq
        have hbk : b.1 = k := eq_of_beq (by simpa using hpb)
        have hqk : q.1 = k := eq_of_beq (by simpa using hcq)
        have hnodup : ((l₁ ++ b :: l₂).map Prod.fst).Nodup := by
          unfold WF at hwf
          rwa [hsplit] at hwf
        rw [List.map_append, List.map_cons] at hnodup
        have hright : (b.1 :: l₂.map Prod.fst).Nodup := hnodup.of_append_right
        have hnotmem : b.1 ∉ l₂.map Prod.fst := (List.nodup_cons.mp hright).1
        exact hnotmem (by rw [hbk, ← hqk]; exact List.mem_map_of_mem Prod.fst hq₂)
  · -- the key was absent: nothing in the old list (nor its dropLast) has key k
    have hnone : ∀ q ∈ c.entries, (q.1 == k) = false := by
      intro q hq
      by_contra hcq
      rw [Bool.not_eq_false] at hcq
      exact h (List.any_eq_true.mpr ⟨q, hq, hcq⟩)
    by_cases hev : c.maxEntries ≠ 0 ∧ ((k, v) :: c.entries).length > c.maxEntries
    · have hne : c.entries ≠ [] := by
        intro hnil
        rcases hev with ⟨h0, hlen⟩
        rw [hnil] at hlen
        simp at hlen
        omega
      refine ⟨c.entries.dropLast, ?_, ?_⟩
      · unfold add
        rw [if_neg h, if_pos hev]
        show ((k, v) :: c.entries).dropLast = (k, v) :: c.entries.dropLast
        obtain ⟨p, tl, hm⟩ := List.exists_cons_of_ne_nil hne
        rw [hm, List.dropLast_cons₂]
      · intro q hq
        exact hnone q ((List.dropLast_sublist c.entries).subset hq)
    · refine ⟨c.entries, ?_, hnone⟩
      unfold add
      rw [if_neg h, if_neg hev]

end LRU

/- ---------------------------------------------------------------------
The cache package (src/server/serve.go, package cache).
--------------------------------------------------------------------- -/

/-- The error taxonomy of Cache.Get: `errNotFound`, `expired`, the failed
cast to `expiringBits`, and a gob decode failure. In this typed model the
cast cannot fail and same-type decoding always succeeds, so the last two
are never produced. -/
inductive CacheError
  | notFound
  | expired
  | castFailed
  | decodeFailed
  deriving DecidableEq

/-- Models `enc`: gob-encode and gzip the value. The serialized byte
string is modelled by the value it round-trips to, which is faithful for
the matching-type decodes these claims exercise. -/
def enc {V : Type} (v : V) : V := v

/-- Models the gob decode performed by Cache.Get on a matching type. -/
def decodeBits {V : Type} (bits : V) : V := bits

/-- The expiringBits record stored by the cache. Field names follow the
Go struct. -/
structure expiringBits (V : Type) where
  Set : Int
  Expires : Int
  Bits : V
  deriving DecidableEq

structure Cache (V : Type) where
  c : LRU (expiringBits V)
  deriving DecidableEq

namespace Cache

variable {V : Type}

/-- Cache.Set: records the current time, the expiry `now + timeout`, and
the encoded value, overwriting any entry at the key. -/
def Set (c : Cache V) (now : Int) (key : String) (val : V) (timeout : Int) : Cache V :=
  { c := c.c.add key { Set := now, Expires := now + timeout, Bits := enc val } }

/-- Cache.Get: miss gives errNotFound; a hit whose expiry has passed
(`time.Since(e.Expires) > 0`) removes the entry and gives expired;
otherwise the payload is decoded and the stored time returned. -/
def Get (c : Cache V) (now : Int) (key : String) :
    Except CacheError (Int × V) × Cache V :=
  match (c.c.get key).1 with
  | none => (Except.error CacheError.notFound, c)
  | some e =>
    if 0 < now - e.Expires then
      (Except.error CacheError.expired, { c := (c.c.get key).2.remove key })
    else
      (Except.ok (e.Set, decodeBits e.Bits), { c := (c.c.get key).2 })

end Cache

namespace LRU

variable {V : Type}

theorem get_of_entries_front (c : LRU V) (k : String) (e : V) (rest : List (String × V))
    (h : c.entries = (k, e) :: rest) : c.get k = (some e, c) := by
  obtain ⟨mx, es⟩ := c
  simp only at h
  subst h
  unfold get
  rw [List.find?_cons_of_pos _ (by simp)]
  simp [List.eraseP_cons_of_pos]

theorem get_fst_add_self (c : LRU V) (k : String) (v : V) :
    ((c.add k v).get k).1 = some v := by
  unfold get
  rw [find?_add_self]

end LRU

/-- A Get whose key sits at the front of the recency list either expires
or returns the stored entry. -/
theorem Cache.get_front {V : Type} (c : Cache V) (now : Int) (k : String)
    (e : expiringBits V) (rest : List (String × expiringBits V))
    (h : c.c.entries = (k, e) :: rest) :
    c.Get now k = if 0 < now - e.Expires
      then (Except.error CacheError.expired, ⟨c.c.remove k⟩)
      else (Except.ok (e.Set, decodeBits e.Bits), c) := by
  have hget := LRU.get_of_entries_front _ _ _ _ h
  by_cases hc : 0 < now - e.Expires
  · rw [if_pos hc]
    unfold Cache.Get
    rw [hget]
    simp [hc]
  · rw [if_neg hc]
    unfold Cache.Get
    rw [hget]
    simp [hc]

/-- A Get whose key is absent reports errNotFound. -/
theorem Cache.get_notfound {V : Type} (c : Cache V) (now : Int) (k : String)
    (h : c.c.entries.find? (fun p => p.1 == k) = none) :
    (c.Get now k).1 = Except.error CacheError.notFound := by
  unfold Cache.Get LRU.get
  rw [h]

/-- Claim C4: storing a value and immediately reading it back succeeds,
returns the value unchanged, and reports the time the Set call observed. -/
theorem C4_set_then_immediate_get {V : Type} (c : Cache V) (now : Int) (k : String)
    (v : V) (d : Int) (hd : 0 < d) :
    ((Cache.Set c now k v d).Get now k).1 = Except.ok (now, v) := by
  obtain ⟨rest, hr, -⟩ := c.c.add_entries k (⟨now, now + d, enc v⟩ : expiringBits V)
  have hnotexp : ¬ (0 < now - (⟨now, now + d, enc v⟩ : expiringBits V).Expires) := by
    show ¬ (0 < now - (now + d))
    omega
  rw [Cache.get_front (Cache.Set c now k v d) now k _ rest hr, if_neg hnotexp]
  rfl

/-- Witness for C4 at a concrete cache, key, value and TTL. -/
theorem C4_set_then_immediate_get_witness :
    ((Cache.Set (⟨⟨0, []⟩⟩ : Cache Nat) 3 "k" 7 5).Get 3 "k").1 = Except.ok (3, 7) :=
  C4_set_then_immediate_get ⟨⟨0, []⟩⟩ 3 "k" 7 5 (by decide)

/-- Claim C5: once strictly more than the TTL has elapsed since the Set,
the next Get reports expired and removes the entry, and a Get after that
reports not found. -/
theorem C5_expired_get_then_notfound {V : Type} (c : Cache V) (hwf : c.c.WF)
    (now : Int) (k : String) (v : V) (d : Int) (now1 now2 : Int)
    (h1 : now + d < now1) :
    ((Cache.Set c now k v d).Get now1 k).1 = Except.error CacheError.expired ∧
    ((((Cache.Set c now k v d).Get now1 k).2).Get now2 k).1 =
      Except.error CacheError.notFound := by
  obtain ⟨rest, hr, hrest⟩ := c.c.add_shape hwf k (⟨now, now + d, enc v⟩ : expiringBits V)
  have hexp : 0 < now1 - (⟨now, now + d, enc v⟩ : expiringBits V).Expires := by
    show (0 : Int) < now1 - (now + d)
    omega
  have hremove : ((c.c.add k ⟨now, now + d, enc v⟩).remove k).entries = rest := by
    unfold LRU.remove
    show ((c.c.add k ⟨now, now + d, enc v⟩).entries).eraseP (fun p => p.1 == k) = rest
    rw [hr]
    exact List.eraseP_cons_of_pos (beq_self_eq_true k)
  have hfind2 : rest.find? (fun p => p.1 == k) = none := by
    rw [List.find?_eq_none]
    intro p hp
    simp only [Bool.not_eq_true]
    exact hrest p hp
  rw [Cache.get_front (Cache.Set c now k v d) now1 k _ rest hr, if_pos hexp]
  refine ⟨rfl, ?_⟩
  refine Cache.get_notfound _ now2 k ?_
  show ((c.c.add k ⟨now, now + d, enc v⟩).remove k).entries.find? (fun p => p.1 == k) = none
  rw [hremove]
  exact hfind2

/-- Witness for C5: a value stored at time 0 with TTL 5, read at times 6
and 9. -/
theorem C5_expired_get_then_notfound_witness :
    ((Cache.Set (⟨⟨0, []⟩⟩ : Cache Nat) 0 "k" 7 5).Get 6 "k").1 = Except.error CacheError.expired ∧
    ((((Cache.Set (⟨⟨0, []⟩⟩ : Cache Nat) 0 "k" 7 5).Get 6 "k").2).Get 9 "k").1 =
      Except.error CacheError.notFound :=
  C5_expired_get_then_notfound ⟨⟨0, []⟩⟩ (by simp [LRU.WF]) 0 "k" 7 5 6 9 (by decide)

/-- Claim C6 as amended: for every strictly positive timeout, the stored
expiringBits record has Expires strictly greater than Set. (The original
claim, quantified over every timeout, fails at timeout 0.) -/
theorem C6_expires_gt_set_for_pos_timeout {V : Type} (c : Cache V) (now : Int)
    (k : String) (v : V) (d : Int) (hd : 0 < d) :
    (((Cache.Set c now k v d).c.get k).1 =
      some { Set := now, Expires := now + d, Bits := enc v }) ∧ now < now + d := by
  constructor
  · show ((c.c.add k ⟨now, now + d, enc v⟩).get k).1 = _
    exact LRU.get_fst_add_self _ _ _
  · omega

/-- Witness for the amended C6 at timeout 5. -/
theorem C6_expires_gt_set_for_pos_timeout_witness :
    ((((Cache.Set (⟨⟨0, []⟩⟩ : Cache Nat) 3 "k" 42 5).c.get "k").1 =
      some { Set := 3, Expires := 3 + 5, Bits := enc 42 }) ∧ (3 : Int) < 3 + 5) :=
  C6_expires_gt_set_for_pos_timeout ⟨⟨0, []⟩⟩ 3 "k" 42 5 (by decide)

/-- Counterexample to claim C6 as stated: with timeout 0 the stored record
has Expires equal to Set, not strictly greater. -/
theorem C6_timeout_zero_counterexample :
    ((((Cache.Set (⟨⟨0, []⟩⟩ : Cache Nat) 5 "k" 42 0).c.get "k").1 =
      some { Set := 5, Expires := 5, Bits := enc 42 }) ∧ ¬ ((5 : Int) < 5)) := by
  constructor
  · decide
  · decide

/- ---------------------------------------------------------------------
The views package (src/server/serve.go, package views).
--------------------------------------------------------------------- -/

/-- Modelled from the spec: a config.User carries a named capability set
(PermissionPolicy) of boolean capabilities, with unset capabilities
defaulting to permitted; only the two capabilities these claims touch are
modelled, read by the CanViewAlerts and CanViewMedia accessors. -/
structure User where
  canViewAlerts : Bool
  canViewMedia : Bool
  deriving DecidableEq

/-- Modelled from the spec: services.Opaque (the TokenCodec Seal
operation) seals a cleartext string under the per-process secret key into
a URL-safe token bound to that key and to exactly one cleartext.
Authenticated encryption is modelled by pairing the key with the
cleartext. -/
def sealToken (cleartext : String) (key : String) : String :=
  key ++ ":" ++ cleartext

/-- Errors surfaced by views.Client fetches: config.PermissionDenied,
synthesized locally, or an error passed through from the upstream
client. -/
inductive ViewError
  | permissionDenied
  | upstream (msg : String)
  deriving DecidableEq

/-- Client.GetMediaURLs. The outcome of the one upstream call
(`client.Messages.GetMediaURLs`) is an explicit input; the returned Bool
records whether that upstream call was made. When the user may view
media, each upstream URL is sealed and rewritten to the local image proxy
path. (url.Parse of such a path cannot fail and is omitted.) -/
def GetMediaURLs (key : String) (u : User) (upstream : Except String (List String)) :
    Except ViewError (List String) × Bool :=
  if u.canViewMedia = false then
    (Except.error ViewError.permissionDenied, false)
  else
    match upstream with
    | Except.error e => (Except.error (ViewError.upstream e), true)
    | Except.ok urls => (Except.ok (urls.map (fun s => "/images/" ++ sealToken s key)), true)

/- ---------------------------------------------------------------------
The alert list server (src/unnamed/part_000).
--------------------------------------------------------------------- -/

/-- go-types NullTime: a timestamp that may be marked not valid. -/
structure NullTime where
  Valid : Bool
  Time : Int
  deriving DecidableEq

/-- go-types NullString. -/
structure NullString where
  Valid : Bool
  Str : String
  deriving DecidableEq

instance {ε α : Type} [DecidableEq ε] [DecidableEq α] : DecidableEq (Except ε α) := by
  intro a b
  cases a <;> cases b <;>
    first
    | exact isFalse (by intro hc; exact Except.noConfusion hc)
    | exact decidable_of_iff _ (by rw [Except.error.injEq])
    | exact decidable_of_iff _ (by rw [Except.ok.injEq])

/-- Modelled from the spec: a views.Alert record as the handler reads it;
DateCreated yields the record creation timestamp, possibly not valid, or
an error. -/
structure Alert where
  DateCreated : Except String NullTime
  deriving DecidableEq

/-- A views.AlertPage as the handler reads it: the (redacted) alerts plus
the upstream continuation URIs. -/
structure AlertPage where
  alerts : List Alert
  nextPageUri : NullString
  previousPageUri : NullString
  deriving DecidableEq

/-- new(views.AlertPage): the zero value. -/
def emptyAlertPage : AlertPage :=
  { alerts := [], nextPageUri := ⟨false, ""⟩, previousPageUri := ⟨false, ""⟩ }

/-- The alertFrequency record of the handler. -/
structure alertFrequency where
  Since : Int
  Name : String
  Count : Nat
  HaveMore : Bool
  deriving DecidableEq

/-- The body of the loop in getAlertFrequency: an alert is counted when
DateCreated returns no error, the timestamp is valid, and
`now.Sub(createdAt.Time) < since`. -/
def alertInWindow (now : Int) (since : Int) (alert : Alert) : Bool :=
  match alert.DateCreated with
  | Except.error _ => false
  | Except.ok createdAt => createdAt.Valid && decide (now - createdAt.Time < since)

/-- getAlertFrequency (src/unnamed/part_000 lines 96-114). -/
def getAlertFrequency (now : Int) (alerts : List Alert) (name : String) (since : Int) :
    alertFrequency :=
  let count := alerts.countP (alertInWindow now since)
  { Name := name
    Count := count
    Since := since
    HaveMore := decide (0 < count) && decide (alerts.length ≤ count) }

/-- strings.HasPrefix, computed over character lists so that concrete
runs reduce in the kernel. -/
def goStartsWith (s pre : String) : Bool :=
  pre.data.isPrefixOf s.data

/-- The twilio-go library constant the handler compares decrypted next
page URIs against. -/
def MonitorBaseURL : String := "https://monitor.twilio.com/v1"

/-- Modelled from the spec: getEncryptedPage seals a continuation URI for
the client when one is present and yields the empty string otherwise. -/
def getEncryptedPage (uri : NullString) (key : String) : String :=
  if uri.Valid then sealToken uri.Str key else ""

/-- The two upstream fetches the handler can perform (including the
background prefetch, which also calls GetNextAlertPageInRange). -/
inductive UpstreamCall
  | getAlertPageInRange
  | getNextAlertPageInRange
  deriving DecidableEq

/-- Outcome of an upstream page fetch: a page, the twilio.NoMoreResults
sentinel, a rest.Error carrying a status code, or another error. -/
inductive FetchOutcome
  | ok (page : AlertPage)
  | noMoreResults
  | restError (status : Nat) (msg : String)
  | otherError (msg : String)
  deriving DecidableEq

/-- The response alertListServer.ServeHTTP writes: rest.ServerError,
rest.Forbidden, the error page written by getTimes, renderError with
StatusBadRequest, rest.NotFound, or the 200 page render carrying the page
data, the sealed continuation tokens and (first page only) the frequency
buckets. -/
inductive HandlerResult
  | serverError (msg : String)
  | forbidden
  | timesHandled
  | badRequest (msg : String)
  | notFound
  | served (page : AlertPage) (encryptedNextPage : String) (encryptedPreviousPage : String)
      (freq : Option (List alertFrequency))
  deriving DecidableEq

/-- The inputs of one ServeHTTP run that are produced outside the
embedded code: the authenticated user (config.GetUser), whether getTimes
already wrote an error page, the result of getNext (opening an inbound
`next` token; ok "" when the parameter is absent), the result of
setPageFilters, the current time, and the upstream client's response to
each of the two possible fetches. -/
structure ServeInput where
  user : Option User
  timesError : Bool
  nextToken : Except String String
  filtersError : Option String
  now : Int
  fetchFirst : FetchOutcome
  fetchNext : FetchOutcome
  deriving DecidableEq

/-- The frequency buckets computed for a first page (src/unnamed/part_000
lines 269-274). The fourth bucket is labelled "3 days" but, as in the
source, is computed over 24*time.Hour. -/
def alertFrequencies (now : Int) (alerts : List Alert) : List alertFrequency :=
  [getAlertFrequency now alerts "5 minutes" (5 * nsMinute),
   getAlertFrequency now alerts "hour" nsHour,
   getAlertFrequency now alerts "day" (24 * nsHour),
   getAlertFrequency now alerts "3 days" (24 * nsHour)]

/-- The tail of a successful ServeHTTP run: fire the background prefetch
when the page has a next page URI, seal the continuation URIs, and attach
the frequency buckets when the request had no inbound token. -/
def serveAlertData (key : String) (now : Int) (next : String) (page : AlertPage)
    (calls : List UpstreamCall) : HandlerResult × List UpstreamCall :=
  (HandlerResult.served page (getEncryptedPage page.nextPageUri key)
      (getEncryptedPage page.previousPageUri key)
      (if next = "" then some (alertFrequencies now page.alerts) else none),
    calls ++ (if page.nextPageUri.Valid then [UpstreamCall.getNextAlertPageInRange] else []))

/-- Error dispatch after the fetch (src/unnamed/part_000 lines 228-247):
twilio.NoMoreResults is normalized to an empty page before the error
switch; a rest.Error maps 400 to renderError, 404 to rest.NotFound and
anything else to rest.ServerError; other errors go to rest.ServerError. -/
def finishFetch (key : String) (now : Int) (next : String) (outcome : FetchOutcome)
    (calls : List UpstreamCall) : HandlerResult × List UpstreamCall :=
  match outcome with
  | FetchOutcome.noMoreResults => serveAlertData key now next emptyAlertPage calls
  | FetchOutcome.ok page => serveAlertData key now next page calls
  | FetchOutcome.restError status msg =>
    if status = 400 then (HandlerResult.badRequest msg, calls)
    else if status = 404 then (HandlerResult.notFound, calls)
    else (HandlerResult.serverError msg, calls)
  | FetchOutcome.otherError msg => (HandlerResult.serverError msg, calls)

/-- alertListServer.ServeHTTP (src/unnamed/part_000 lines 182-283),
returning the response written and the list of upstream client calls the
run makes. -/
def serveHTTP (key : String) (inp : ServeInput) : HandlerResult × List UpstreamCall :=
  match inp.user with
  | none => (HandlerResult.serverError "No user available", [])
  | some u =>
    if u.canViewAlerts = false then
      (HandlerResult.forbidden, [])
    else if inp.timesError then
      (HandlerResult.timesHandled, [])
    else
      match inp.nextToken with
      | Except.error e =>
        (HandlerResult.badRequest ("Could not decrypt next query parameter: " ++ e), [])
      | Except.ok next =>
        if next ≠ "" then
          if goStartsWith next MonitorBaseURL = false then
            (HandlerResult.badRequest "Invalid next page uri", [])
          else
            finishFetch key inp.now next inp.fetchNext [UpstreamCall.getNextAlertPageInRange]
        else
          match inp.filtersError with
          | some msg => (HandlerResult.badRequest msg, [])
          | none => finishFetch key inp.now "" inp.fetchFirst [UpstreamCall.getAlertPageInRange]

/-- Claim C1: when the inbound next token fails to open, or opens to a
cleartext that does not start with the Monitor base URL, the handler
answers 400 Bad Request and performs no upstream call. -/
theorem C1_invalid_token_no_upstream (key : String) (u : User) (tok : Except String String)
    (fe : Option String) (now : Int) (ff fn : FetchOutcome)
    (hv : u.canViewAlerts = true)
    (hbad : (∃ e, tok = Except.error e) ∨
      (∃ next, tok = Except.ok next ∧ next ≠ "" ∧ goStartsWith next MonitorBaseURL = false)) :
    (∃ msg, (serveHTTP key ⟨some u, false, tok, fe, now, ff, fn⟩).1 =
      HandlerResult.badRequest msg) ∧
    (serveHTTP key ⟨some u, false, tok, fe, now, ff, fn⟩).2 = [] := by
  rcases hbad with ⟨e, he⟩ | ⟨next, hn, hne, hp⟩
  · subst he
    exact ⟨⟨"Could not decrypt next query parameter: " ++ e, by simp [serveHTTP, hv]⟩,
      by simp [serveHTTP, hv]⟩
  · subst hn
    refine ⟨⟨"Invalid next page uri", ?_⟩, ?_⟩ <;> simp [serveHTTP, hv, hne, hp]

/-- Witness for C1: a token that fails to decrypt. -/
theorem C1_invalid_token_no_upstream_witness :
    (∃ msg, (serveHTTP "key" ⟨some ⟨true, true⟩, false, Except.error "boom", none, 0,
        FetchOutcome.noMoreResults, FetchOutcome.noMoreResults⟩).1 =
      HandlerResult.badRequest msg) ∧
    (serveHTTP "key" ⟨some ⟨true, true⟩, false, Except.error "boom", none, 0,
        FetchOutcome.noMoreResults, FetchOutcome.noMoreResults⟩).2 = [] :=
  C1_invalid_token_no_upstream "key" ⟨true, true⟩ (Except.error "boom") none 0
    FetchOutcome.noMoreResults FetchOutcome.noMoreResults rfl (Or.inl ⟨"boom", rfl⟩)

/-- Claim C2: a user who may not view media gets config.PermissionDenied
from GetMediaURLs with no upstream contact, and a user who may not view
alerts gets Forbidden from the alert handler with no upstream call. -/
theorem C2_forbidden_before_upstream (key1 key2 : String) (u1 u2 : User)
    (up : Except String (List String)) (te : Bool) (tok : Except String String)
    (fe : Option String) (now : Int) (ff fn : FetchOutcome)
    (h1 : u1.canViewMedia = false) (h2 : u2.canViewAlerts = false) :
    GetMediaURLs key1 u1 up = (Except.error ViewError.permissionDenied, false) ∧
    serveHTTP key2 ⟨some u2, te, tok, fe, now, ff, fn⟩ = (HandlerResult.forbidden, []) := by
  constructor
  · simp [GetMediaURLs, h1]
  · simp [serveHTTP, h2]

/-- Witness for C2 with one user denied media and another denied alerts. -/
theorem C2_forbidden_before_upstream_witness :
    GetMediaURLs "k1" ⟨true, false⟩ (Except.ok ["u"]) =
      (Except.error ViewError.permissionDenied, false) ∧
    serveHTTP "k2" ⟨some ⟨false, true⟩, false, Except.ok "", none, 0,
      FetchOutcome.noMoreResults, FetchOutcome.noMoreResults⟩ =
      (HandlerResult.forbidden, []) :=
  C2_forbidden_before_upstream "k1" "k2" ⟨true, false⟩ ⟨false, true⟩ (Except.ok ["u"]) false
    (Except.ok "") none 0 FetchOutcome.noMoreResults FetchOutcome.noMoreResults rfl rfl

/-- Claim C3: for a user who may view media and a successful upstream
fetch, GetMediaURLs returns exactly the upstream URLs sealed under the
process key behind the local /images/ path, one output per input. -/
theorem C3_media_urls_sealed_and_local (key : String) (u : User) (urls : List String)
    (h : u.canViewMedia = true) :
    GetMediaURLs key u (Except.ok urls) =
      (Except.ok (urls.map (fun s => "/images/" ++ sealToken s key)), true) ∧
    (urls.map (fun s => "/images/" ++ sealToken s key)).length = urls.length := by
  constructor
  · simp [GetMediaURLs, h]
  · exact List.length_map urls _

/-- Witness for C3 on a one-element upstream URL list. -/
theorem C3_media_urls_sealed_and_local_witness :
    GetMediaURLs "secret" ⟨true, true⟩ (Except.ok ["https://api.twilio.com/m.jpg"]) =
      (Except.ok (["https://api.twilio.com/m.jpg"].map
        (fun s => "/images/" ++ sealToken s "secret")), true) ∧
    (["https://api.twilio.com/m.jpg"].map
      (fun s => "/images/" ++ sealToken s "secret")).length =
      (["https://api.twilio.com/m.jpg"] : List String).length :=
  C3_media_urls_sealed_and_local "secret" ⟨true, true⟩ ["https://api.twilio.com/m.jpg"] rfl

/-- Claim C7: when the upstream client reports twilio.NoMoreResults, the
request is served as a 200 with an empty page and no error. -/
theorem C7_no_more_results_served_empty (key : String) (u : User)
    (tok : Except String String) (fe : Option String) (now : Int) (ff fn : FetchOutcome)
    (hv : u.canViewAlerts = true)
    (hcase :
      (∃ next, tok = Except.ok next ∧ next ≠ "" ∧ goStartsWith next MonitorBaseURL = true ∧
        fn = FetchOutcome.noMoreResults) ∨
      (tok = Except.ok "" ∧ fe = none ∧ ff = FetchOutcome.noMoreResults)) :
    ∃ fr calls, serveHTTP key ⟨some u, false, tok, fe, now, ff, fn⟩ =
      (HandlerResult.served emptyAlertPage "" "" fr, calls) := by
  rcases hcase with ⟨next, hn, hne, hp, hfn⟩ | ⟨hn, hfe, hff⟩
  · subst hn
    subst hfn
    refine ⟨none, [UpstreamCall.getNextAlertPageInRange], ?_⟩
    simp [serveHTTP, hv, hne, hp, finishFetch, serveAlertData, emptyAlertPage, getEncryptedPage]
  · subst hn
    subst hfe
    subst hff
    refine ⟨some (alertFrequencies now []), [UpstreamCall.getAlertPageInRange], ?_⟩
    simp [serveHTTP, hv, finishFetch, serveAlertData, emptyAlertPage, getEncryptedPage]

/-- Witness for C7: a continuation request whose upstream fetch reports
twilio.NoMoreResults. -/
theorem C7_no_more_results_served_empty_witness :
    ∃ fr calls, serveHTTP "key" ⟨some ⟨true, true⟩, false,
      Except.ok "https://monitor.twilio.com/v1/Alerts?Page=2", none, 0,
      FetchOutcome.otherError "unused", FetchOutcome.noMoreResults⟩ =
      (HandlerResult.served emptyAlertPage "" "" fr, calls) :=
  C7_no_more_results_served_empty "key" ⟨true, true⟩
    (Except.ok "https://monitor.twilio.com/v1/Alerts?Page=2") none 0
    (FetchOutcome.otherError "unused") FetchOutcome.noMoreResults rfl
    (Or.inl ⟨"https://monitor.twilio.com/v1/Alerts?Page=2", rfl, by decide, by decide, rfl⟩)

/-- Claim C8, evaluated at the failing input: a first page containing one
alert created 48 hours ago is served with four buckets whose fourth is
labelled "3 days" but is computed over a 24 hour window, so its count is
0 even though the alert lies within 3 days of the request time. -/
theorem C8_three_day_bucket_uses_24h_window :
    ((serveHTTP "k" ⟨some ⟨true, true⟩, false, Except.ok "", none, 0,
        FetchOutcome.ok ⟨[⟨Except.ok ⟨true, -(48 * nsHour)⟩⟩], ⟨false, ""⟩, ⟨false, ""⟩⟩,
        FetchOutcome.noMoreResults⟩).1 =
      HandlerResult.served ⟨[⟨Except.ok ⟨true, -(48 * nsHour)⟩⟩], ⟨false, ""⟩, ⟨false, ""⟩⟩ "" ""
        (some [⟨5 * nsMinute, "5 minutes", 0, false⟩, ⟨nsHour, "hour", 0, false⟩,
          ⟨24 * nsHour, "day", 0, false⟩, ⟨24 * nsHour, "3 days", 0, false⟩])) ∧
    (0 - (-(48 * nsHour)) < 72 * nsHour) := by
  constructor
  · decide
  · decide

/-- Counterexample to claim C9 as stated: on an empty page the count (0)
equals the number of records examined (0), yet HaveMore is false because
of the `count > 0` guard. -/
theorem C9_empty_page_counterexample :
    (getAlertFrequency 0 [] "hour" nsHour).Count = ([] : List Alert).length ∧
    (getAlertFrequency 0 [] "hour" nsHour).HaveMore = false := by
  constructor
  · rfl
  · rfl

/-- Claim C9 as amended: the saturated flag is true exactly when the
count is positive and equals the total number of records examined. -/
theorem C9_saturated_iff_pos_and_full (now : Int) (alerts : List Alert) (name : String)
    (since : Int) :
    (getAlertFrequency now alerts name since).HaveMore = true ↔
      (0 < (getAlertFrequency now alerts name since).Count ∧
        (getAlertFrequency now alerts name since).Count = alerts.length) := by
  simp only [getAlertFrequency, Bool.and_eq_true, decide_eq_true_eq]
  constructor
  · rintro ⟨h1, h2⟩
    exact ⟨h1, Nat.le_antisymm (List.countP_le_length _) h2⟩
  · rintro ⟨h1, h2⟩
    exact ⟨h1, Nat.le_of_eq h2.symm⟩

/-- An alert whose DateCreated errors or is not valid. -/
def dateInvalid (a : Alert) : Bool :=
  match a.DateCreated with
  | Except.error _ => true
  | Except.ok c => !c.Valid

theorem dateInvalid_not_in_window (a : Alert) (h : dateInvalid a = true) (now since : Int) :
    alertInWindow now since a = false := by
  obtain ⟨dc⟩ := a
  cases dc with
  | error e => rfl
  | ok c =>
    unfold dateInvalid at h
    simp only [Bool.not_eq_true'] at h
    unfold alertInWindow
    simp [h]

/-- Claim C10: an alert without a usable creation timestamp is never
counted but still contributes to the length used for saturation, so a
page holding such an alert next to in-window alerts has a positive count
strictly below the total and a false saturated flag. -/
theorem C10_invalid_date_alert_never_counted (now since : Int) (alerts : List Alert)
    (name : String) (a b : Alert) (ha : a ∈ alerts) (hainv : dateInvalid a = true)
    (hb : b ∈ alerts) (hbw : alertInWindow now since b = true) :
    0 < (getAlertFrequency now alerts name since).Count ∧
    (getAlertFrequency now alerts name since).Count < alerts.length ∧
    (getAlertFrequency now alerts name since).HaveMore = false := by
  have hpos : 0 < alerts.countP (alertInWindow now since) :=
    List.countP_pos_iff.mpr ⟨b, hb, hbw⟩
  have hne : alerts.countP (alertInWindow now since) ≠ alerts.length := by
    intro heq
    have hall := List.countP_eq_length.mp heq
    have hwin := hall a ha
    rw [dateInvalid_not_in_window a hainv now since] at hwin
    exact Bool.false_ne_true hwin
  have hlt : alerts.countP (alertInWindow now since) < alerts.length :=
    Nat.lt_of_le_of_ne (List.countP_le_length _) hne
  have hnle : ¬ (alerts.length ≤ alerts.countP (alertInWindow now since)) := Nat.not_le.mpr hlt
  refine ⟨?_, ?_, ?_⟩
  · simpa [getAlertFrequency] using hpos
  · simpa [getAlertFrequency] using hlt
  · simp [getAlertFrequency, hnle]

/-- Witness for C10: a page holding one alert whose DateCreated errors and
one in-window alert. -/
theorem C10_invalid_date_alert_never_counted_witness :
    0 < (getAlertFrequency 0 [⟨Except.error "boom"⟩, ⟨Except.ok ⟨true, 0⟩⟩] "hour" nsHour).Count ∧
    (getAlertFrequency 0 [⟨Except.error "boom"⟩, ⟨Except.ok ⟨true, 0⟩⟩] "hour" nsHour).Count <
      ([⟨Except.error "boom"⟩, ⟨Except.ok ⟨true, 0⟩⟩] : List Alert).length ∧
    (getAlertFrequency 0 [⟨Except.error "boom"⟩, ⟨Except.ok ⟨true, 0⟩⟩] "hour" nsHour).HaveMore =
      false :=
  C10_invalid_date_alert_never_counted 0 nsHour
    [⟨Except.error "boom"⟩, ⟨Except.ok ⟨true, 0⟩⟩] "hour"
    ⟨Except.error "boom"⟩ ⟨Except.ok ⟨true, 0⟩⟩ (by simp) rfl (by simp) (by decide)

end Logrole

